import Mathlib

/-!
# Verification of the survey_accelerator search backend

Shallow embedding of the core search / ranking / highlight code of the
`survey_accelerator` repository (backend/app/search/), together with proofs
of the behavioural properties stated in its specification.

Python strings are modelled as `List Char`; Python floats that only ever
carry exact decimal score arithmetic are modelled as `ℚ`; fallible external
calls (the LLM scoring / explanation / keyphrase oracles, the embedding and
rerank services) are modelled by passing their outcome in as data.
-/

namespace SA

/-- Python strings, modelled as lists of characters. -/
abbrev Str := List Char

/-! ## Python string primitives

Each primitive mirrors the semantics of the Python string operation
used by the source code. -/

/-- Python `s.strip()`: remove leading and trailing whitespace. -/
def pyStrip (s : Str) : Str :=
  ((s.dropWhile Char.isWhitespace).reverse.dropWhile Char.isWhitespace).reverse

/-- Python `sub in s`: substring containment, via an explicit scan. -/
def pyContains (s sub : Str) : Bool :=
  (List.range (s.length + 1)).any (fun i => sub.isPrefixOf (s.drop i))

/-- Python `s.find(sub)` restricted to the success case: the least index at
which `sub` occurs in `s`, if any. -/
def pyFind (s sub : Str) : Option Nat :=
  (List.range (s.length + 1)).find? (fun i => sub.isPrefixOf (s.drop i))

/-- Auxiliary for `pySplitChar`: `acc` holds the (reversed) characters of the
current field. -/
def pySplitCharAux (c : Char) : Str → Str → List Str
  | [], acc => [acc.reverse]
  | x :: rest, acc =>
    if x = c then acc.reverse :: pySplitCharAux c rest []
    else pySplitCharAux c rest (x :: acc)

/-- Python `s.split(sep)` for a single-character separator. -/
def pySplitChar (c : Char) (s : Str) : List Str := pySplitCharAux c s []

/-- Auxiliary for `pySplitStr`, fuel-indexed so that it is structurally
recursive (the fuel is always at least the length of the string, so the
fuel-exhaustion branch is never taken). -/
def pySplitStrGo (s0 : Char) (sep' : Str) : Nat → Str → Str → List Str
  | _, [], acc => [acc.reverse]
  | 0, s, acc => [acc.reverse ++ s]
  | fuel + 1, c :: rest, acc =>
    if (s0 :: sep').isPrefixOf (c :: rest) then
      acc.reverse :: pySplitStrGo s0 sep' (fuel - sep'.length) (rest.drop sep'.length) []
    else
      pySplitStrGo s0 sep' fuel rest (c :: acc)

/-- Python `s.split(sep)` for a general (non-empty) separator string. -/
def pySplitStr (sep : Str) (s : Str) : List Str :=
  match sep with
  | [] => [s]
  | s0 :: sep' => pySplitStrGo s0 sep' s.length s []

/-- Auxiliary for `pySplitWs`. -/
def pySplitWsAux : Str → Str → List Str
  | [], acc => if acc.isEmpty then [] else [acc.reverse]
  | x :: rest, acc =>
    if x.isWhitespace then
      (if acc.isEmpty then [] else [acc.reverse]) ++ pySplitWsAux rest []
    else
      pySplitWsAux rest (x :: acc)

/-- Python `s.split()` (no argument): split on whitespace runs, dropping
empty fields. -/
def pySplitWs (s : Str) : List Str := pySplitWsAux s []

/-- Python `sep.join(ws)`. -/
def pyJoin (sep : Str) : List Str → Str
  | [] => []
  | [w] => w
  | w :: ws => w ++ sep ++ pyJoin sep ws

/-- Python `s.lower()` (sufficient for the ASCII text handled here). -/
def pyLower (s : Str) : Str := s.map Char.toLower

/-! ## Substring lemmas about the primitives -/

theorem pyStrip_isInfix (s : Str) : pyStrip s <:+: s := by
  unfold pyStrip
  have h1 : s.dropWhile Char.isWhitespace <:+ s := List.dropWhile_suffix _
  have h2 : (s.dropWhile Char.isWhitespace).reverse.dropWhile Char.isWhitespace <:+
      (s.dropWhile Char.isWhitespace).reverse := List.dropWhile_suffix _
  have h3 :
      ((s.dropWhile Char.isWhitespace).reverse.dropWhile Char.isWhitespace).reverse <+:
        s.dropWhile Char.isWhitespace := by
    rw [← List.reverse_suffix]
    simpa using h2
  exact (List.IsPrefix.isInfix h3).trans (List.IsSuffix.isInfix h1)

theorem take_isInfix (n : Nat) (s : Str) : s.take n <:+: s :=
  List.IsPrefix.isInfix ( List.take_prefix n s)

theorem dropTake_isInfix (p n : Nat) (s : Str) : (s.drop p).take n <:+: s :=
  (List.IsPrefix.isInfix ( List.take_prefix n (s.drop p))).trans
    (List.IsSuffix.isInfix (List.drop_suffix p s))

theorem pyContains_isInfix {s sub : Str} (h : pyContains s sub = true) : sub <:+: s := by
  unfold pyContains at h
  rw [List.any_eq_true] at h
  obtain ⟨i, -, hp⟩ := h
  exact (List.IsPrefix.isInfix ( List.isPrefixOf_iff_prefix.mp hp)).trans
    (List.IsSuffix.isInfix (List.drop_suffix i s))

theorem pySplitCharAux_mem_isInfix (c : Char) :
    ∀ (s acc e : Str), e ∈ pySplitCharAux c s acc → e <:+: acc.reverse ++ s := by
  intro s
  induction s with
  | nil =>
    intro acc e he
    simp only [pySplitCharAux, List.mem_singleton] at he
    subst he
    simp
  | cons x rest ih =>
    intro acc e he
    simp only [pySplitCharAux] at he
    by_cases hx : x = c
    · rw [if_pos hx] at he
      rcases List.mem_cons.mp he with h | h
      · subst h
        exact List.IsPrefix.isInfix ⟨x :: rest, rfl⟩
      · have := ih [] e h
        simp only [List.reverse_nil, List.nil_append] at this
        refine this.trans (List.IsSuffix.isInfix ?_)
        exact ⟨acc.reverse ++ [x], by simp⟩
    · rw [if_neg hx] at he
      have := ih (x :: acc) e he
      simpa [List.append_assoc] using this

theorem pySplitChar_mem_isInfix {c : Char} {s e : Str} (he : e ∈ pySplitChar c s) :
    e <:+: s := by
  have := pySplitCharAux_mem_isInfix c s [] e he
  simpa using this

theorem pySplitCharAux_append (c : Char) (ys : Str) :
    ∀ (xs acc : Str),
      pySplitCharAux c (xs ++ c :: ys) acc
        = pySplitCharAux c xs acc ++ pySplitCharAux c ys [] := by
  intro xs
  induction xs with
  | nil =>
    intro acc
    simp [pySplitCharAux]
  | cons x rest ih =>
    intro acc
    by_cases hx : x = c
    · simp only [List.cons_append, pySplitCharAux, if_pos hx, List.append_eq]
      rw [ih]
    · simp only [List.cons_append, pySplitCharAux, if_neg hx, List.append_eq]
      exact ih (x :: acc)

theorem pyJoin_comma_mem (c : Char) :
    ∀ (ws : List Str) (e : Str), ws ≠ [] → e ∈ pySplitChar c (pyJoin [c] ws) →
      ∃ w ∈ ws, e <:+: w := by
  intro ws
  induction ws with
  | nil => intro e h; exact absurd rfl h
  | cons w ws ih =>
    intro e hne he
    cases ws with
    | nil =>
      refine ⟨w, List.mem_singleton_self w, ?_⟩
      exact pySplitChar_mem_isInfix he
    | cons w' rest =>
      have hj : pyJoin [c] (w :: w' :: rest) = w ++ c :: pyJoin [c] (w' :: rest) := by
        simp [pyJoin]
      rw [hj] at he
      unfold pySplitChar at he
      rw [pySplitCharAux_append] at he
      rcases List.mem_append.mp he with h | h
      · exact ⟨w, List.mem_cons_self w _, pySplitChar_mem_isInfix h⟩
      · obtain ⟨w₀, hw₀, hinf⟩ := ih e (by simp) h
        exact ⟨w₀, List.mem_cons_of_mem w hw₀, hinf⟩

theorem pySplitWsAux_mem_isInfix :
    ∀ (s acc e : Str), e ∈ pySplitWsAux s acc → e <:+: acc.reverse ++ s := by
  intro s
  induction s with
  | nil =>
    intro acc e he
    simp only [pySplitWsAux] at he
    by_cases ha : acc.isEmpty
    · rw [if_pos ha] at he; cases he
    · rw [if_neg ha] at he
      rcases List.mem_singleton.mp he with h
      subst h
      simp
  | cons x rest ih =>
    intro acc e he
    simp only [pySplitWsAux] at he
    by_cases hx : x.isWhitespace
    · rw [if_pos hx] at he
      rcases List.mem_append.mp he with h | h
      · by_cases ha : acc.isEmpty
        · rw [if_pos ha] at h; cases h
        · rw [if_neg ha] at h
          rcases List.mem_singleton.mp h with h
          subst h
          exact List.IsPrefix.isInfix ⟨x :: rest, rfl⟩
      · have := ih [] e h
        simp only [List.reverse_nil, List.nil_append] at this
        refine this.trans (List.IsSuffix.isInfix ?_)
        exact ⟨acc.reverse ++ [x], by simp⟩
    · rw [if_neg hx] at he
      have := ih (x :: acc) e he
      simpa [List.append_assoc] using this

theorem pySplitWs_mem_isInfix {s e : Str} (he : e ∈ pySplitWs s) : e <:+: s := by
  have := pySplitWsAux_mem_isInfix s [] e he
  simpa using this

/-- Every comma field of a comma-join of strings that are substrings of `t`
is itself a substring of `t`. -/
theorem join_entries_isInfix {ws : List Str} {t e : Str}
    (hw : ∀ w ∈ ws, w <:+: t) (hne : ws ≠ [])
    (he : e ∈ pySplitChar ',' (pyJoin [','] ws)) : e <:+: t := by
  obtain ⟨w, hmem, hinf⟩ := pyJoin_comma_mem ',' ws e hne he
  exact hinf.trans (hw w hmem)

/-- Every comma field of a string that is a substring of `t` is a substring
of `t`. -/
theorem entries_isInfix_of_isInfix {res t e : Str} (hr : res <:+: t)
    (he : e ∈ pySplitChar ',' res) : e <:+: t :=
  (pySplitChar_mem_isInfix he).trans hr

/-! ## Keyphrase extraction
(`backend/app/search/openai_utils.py`, `extract_highlight_keyphrase`)

The oracle (LLM) call is modelled by its outcome: either an exception
(`failure`) or a reply string.  Prompt construction only feeds the oracle
and is therefore not modelled. -/

/-- Outcome of a keyphrase-oracle call. -/
inductive KeyphraseReply where
  | failure
  | reply (content : Str)
deriving DecidableEq

/-- Lines 67-91 of `openai_utils.py`: extract the `RAW TEXT:` section from a
structured chunk, falling back to the whole chunk when it is absent or
empty. -/
def rawTextOf (chunk_content : Str) : Str :=
  let raw_text :=
    if pyContains chunk_content ("METADATA:".toList) then
      match pySplitStr ("RAW TEXT:".toList) chunk_content with
      | _ :: p1 :: _ => pyStrip p1
      | _ => []
    else []
  if raw_text.isEmpty then chunk_content else raw_text

/-- The sentinel reply that the prompt instructs the oracle to use when it
finds no suitable word. -/
def noMatchSentinel : Str := "NO_MATCH_FOUND".toList

/-- Lines 136-150: split the oracle reply on commas, strip each entry and
keep those that are non-empty, occur verbatim in the raw text and have
length at least 3. -/
def keyphraseStep1 (raw_text keyword_list : Str) : List Str :=
  let keywords := (pySplitChar ',' keyword_list).map pyStrip
  keywords.filter (fun k =>
    !k.isEmpty && pyContains raw_text k && decide (3 ≤ (pyStrip k).length))

/-- Lines 158-172: scan the query's words (length > 3) case-insensitively
against the raw text and recover the original-case substring at each hit. -/
def keyphraseStep2 (query raw_text : Str) : List Str :=
  let query_words := ((pySplitWs query).filter (fun w => 3 < w.length)).map pyLower
  let raw_text_lower := pyLower raw_text
  query_words.filterMap (fun word =>
    if pyContains raw_text_lower word then
      let start_pos := (pyFind raw_text_lower word).getD 0
      let original_word := (raw_text.drop start_pos).take word.length
      if 3 ≤ original_word.length then some original_word else none
    else none)

/-- The stopword list of line 181. -/
def keyphraseStopwords : List Str :=
  ["this", "that", "with", "from", "have", "been", "were", "their", "there"].map
    String.toList

/-- Lines 177-183: content words of the first sentence (up to the first
period within the first 100 characters, provided it lies past index 5). -/
def keyphraseStep3 (raw_text : Str) : List Str :=
  match pyFind (raw_text.take 100) ['.'] with
  | some first_period =>
    if 5 < first_period then
      let first_sentence := pyStrip (raw_text.take (first_period + 1))
      (pySplitWs first_sentence).filter (fun w =>
        3 < w.length && !(keyphraseStopwords.contains (pyLower w)))
    else []
  | none => []

/-- Lines 133-134 / 186-193: the first `min(30, len(raw_text))` characters of
the raw text. -/
def keyphraseFallback30 (raw_text : Str) : Str :=
  raw_text.take (min 30 raw_text.length)

/-- `extract_highlight_keyphrase` (lines 54-193 of
`backend/app/search/openai_utils.py`), as a function of the query, the chunk
content and the oracle outcome. -/
def extract_highlight_keyphrase (query chunk_content : Str)
    (oracle : KeyphraseReply) : Str :=
  let raw_text := rawTextOf chunk_content
  match oracle with
  | .failure =>
    -- lines 191-193: exception handler
    keyphraseFallback30 raw_text
  | .reply content =>
    let keyword_list := pyStrip content
    if keyword_list = noMatchSentinel then
      -- lines 131-134: explicit no-match case
      keyphraseFallback30 raw_text
    else
      let valid_keywords := keyphraseStep1 raw_text keyword_list
      if valid_keywords ≠ [] then
        -- line 154
        pyJoin [','] valid_keywords
      else
        let found_words := keyphraseStep2 query raw_text
        if found_words ≠ [] then
          -- line 175
          pyJoin [','] found_words
        else
          let words := keyphraseStep3 raw_text
          if words ≠ [] then
            -- line 184
            pyJoin [','] (words.take 5)
          else
            -- lines 187-189
            pyStrip (keyphraseFallback30 raw_text)

theorem keyphraseStep1_mem_isInfix {raw_text keyword_list w : Str}
    (hw : w ∈ keyphraseStep1 raw_text keyword_list) : w <:+: raw_text := by
  unfold keyphraseStep1 at hw
  have hp := (List.mem_filter.mp hw).2
  simp only [Bool.and_eq_true] at hp
  exact pyContains_isInfix hp.1.2

theorem keyphraseStep2_mem_isInfix {query raw_text w : Str}
    (hw : w ∈ keyphraseStep2 query raw_text) : w <:+: raw_text := by
  unfold keyphraseStep2 at hw
  obtain ⟨word, -, hword⟩ := List.mem_filterMap.mp hw
  by_cases hc : pyContains (pyLower raw_text) word
  · rw [if_pos hc] at hword
    set p := (pyFind (pyLower raw_text) word).getD 0 with hp
    by_cases hl : 3 ≤ ((raw_text.drop p).take word.length).length
    · rw [if_pos hl] at hword
      obtain rfl := Option.some_injective _ hword
      exact dropTake_isInfix p word.length raw_text
    · rw [if_neg hl] at hword
      cases hword
  · rw [if_neg hc] at hword
    cases hword

theorem keyphraseStep3_mem_isInfix {raw_text w : Str}
    (hw : w ∈ keyphraseStep3 raw_text) : w <:+: raw_text := by
  unfold keyphraseStep3 at hw
  split at hw
  · split at hw
    · have hm := (List.mem_filter.mp hw).1
      exact ((pySplitWs_mem_isInfix hm).trans (pyStrip_isInfix _)).trans (take_isInfix _ _)
    · cases hw
  · cases hw

theorem keyphraseFallback30_isInfix (raw_text : Str) :
    keyphraseFallback30 raw_text <:+: raw_text := take_isInfix _ _

/-- **C6.**  For every query, chunk content and keyphrase-oracle reply, every
comma-separated entry of the string returned by `extract_highlight_keyphrase`
is a contiguous substring of the raw text it operated on (the `RAW TEXT`
section of the chunk, or the whole chunk when that section is absent) — in
the step-1 validated path and in every fallback path. -/
theorem extract_highlight_keyphrase_entries_isInfix
    (query chunk_content : Str) (oracle : KeyphraseReply) (e : Str)
    (he : e ∈ pySplitChar ',' (extract_highlight_keyphrase query chunk_content oracle)) :
    e <:+: rawTextOf chunk_content := by
  unfold extract_highlight_keyphrase at he
  cases oracle with
  | failure =>
    exact entries_isInfix_of_isInfix (keyphraseFallback30_isInfix _) he
  | reply content =>
    simp only at he
    by_cases hs : pyStrip content = noMatchSentinel
    · rw [if_pos hs] at he
      exact entries_isInfix_of_isInfix (keyphraseFallback30_isInfix _) he
    · rw [if_neg hs] at he
      by_cases h1 : keyphraseStep1 (rawTextOf chunk_content) (pyStrip content) ≠ []
      · rw [if_pos h1] at he
        exact join_entries_isInfix (fun w hw => keyphraseStep1_mem_isInfix hw) h1 he
      · rw [if_neg h1] at he
        by_cases h2 : keyphraseStep2 query (rawTextOf chunk_content) ≠ []
        · rw [if_pos h2] at he
          exact join_entries_isInfix (fun w hw => keyphraseStep2_mem_isInfix hw) h2 he
        · rw [if_neg h2] at he
          by_cases h3 : keyphraseStep3 (rawTextOf chunk_content) ≠ []
          · rw [if_pos h3] at he
            refine join_entries_isInfix
              (fun w hw => keyphraseStep3_mem_isInfix (List.mem_of_mem_take hw)) ?_ he
            intro habs
            rcases List.take_eq_nil_iff.mp habs with h | h
            · exact absurd h (by simp)
            · exact h3 h
          · rw [if_neg h3] at he
            exact entries_isInfix_of_isInfix
              ((pyStrip_isInfix _).trans (keyphraseFallback30_isInfix _)) he

/-- Witness for C6: on the raw text `"The vaccination rate fell by 12%."`
with query `"vaccination trends"` and oracle reply `"vaccination"`, the
single returned entry `"vaccination"` is a substring of the raw text. -/
theorem extract_highlight_keyphrase_entries_isInfix_witness :
    "vaccination".toList <:+:
      rawTextOf ("The vaccination rate fell by 12%.".toList) :=
  extract_highlight_keyphrase_entries_isInfix
    ("vaccination trends".toList)
    ("The vaccination rate fell by 12%.".toList)
    (.reply ("vaccination".toList))
    ("vaccination".toList)
    (by decide)

/-- **C7 (counterexample).**  When the oracle replies with the sentinel
`NO_MATCH_FOUND` the code returns the first 30 characters of the raw text
(lines 131-134), *not* the result of the query-word-substring fallback, even
when that fallback would succeed: with query `"vaccination trends"` and raw
text `"The vaccination rate fell by 12% in the district."`, the query-word
fallback would produce `"vaccination"`, but the function returns
`"The vaccination rate fell by 1"`. -/
theorem no_match_skips_query_word_fallback :
    extract_highlight_keyphrase ("vaccination trends".toList)
        ("The vaccination rate fell by 12% in the district.".toList)
        (.reply ("NO_MATCH_FOUND".toList))
      = "The vaccination rate fell by 1".toList
    ∧ pyJoin [','] (keyphraseStep2 ("vaccination trends".toList)
        (rawTextOf ("The vaccination rate fell by 12% in the district.".toList)))
      = "vaccination".toList
    ∧ "The vaccination rate fell by 1".toList ≠ "vaccination".toList := by
  refine ⟨by decide, by decide, by decide⟩

/-- **C7 (amended).**  If the keyphrase oracle replies with the explicit
no-match sentinel `NO_MATCH_FOUND`, `extract_highlight_keyphrase` returns the
first `min(30, len(raw_text))` characters of the raw text directly — skipping
keyword validation, the query-word-substring fallback and the first-sentence
fallback — and in particular never treats the sentinel itself as a validated
keyphrase. -/
theorem no_match_returns_fallback30 (query chunk_content : Str) :
    extract_highlight_keyphrase query chunk_content (.reply noMatchSentinel)
      = keyphraseFallback30 (rawTextOf chunk_content) := by
  unfold extract_highlight_keyphrase
  have h : pyStrip noMatchSentinel = noMatchSentinel := by decide
  simp [h]

/-! ## Relevance scoring and ranking
(`backend/app/search/openai_utils.py`, `rank_search_results` /
`analyze_single_document`)

The scoring oracle is modelled by the parsed outcome of its call for each
candidate: `failure` covers both a raised exception and a reply that fails
to parse as JSON (the two handlers, lines 323-331 and 333-341, install the
same neutral values); `parsed` carries the optional numeric fields and the
optional `match_type` label of a successfully parsed JSON object.  Scores
are modelled as exact rationals. -/

/-- A document chunk as handed to `rank_search_results` (the `doc` of each
input dictionary). -/
structure Item where
  id : Nat
  contextualized_chunk : Str
deriving DecidableEq

/-- Outcome of one scoring-oracle call. -/
inductive OracleOutcome where
  | failure
  | parsed (contextual_score : Option ℚ) (direct_match_score : Option ℚ)
      (match_type_label : Option String)
deriving DecidableEq

/-- A candidate after scoring (the fields added by
`analyze_single_document`). -/
structure Scored where
  item : Item
  contextual_score : ℚ
  direct_match_score : ℚ
  match_type : String
  overall_score : ℚ
deriving DecidableEq

/-- A scored candidate after rank assignment (lines 358-369). -/
structure Ranked extends Scored where
  rank : Nat
  strength : String
deriving DecidableEq

/-- Lines 297-341 of `openai_utils.py`: score one candidate from the oracle
outcome.  Missing JSON fields default to 5 individually (lines 304-305); the
`match_type` label proposed by the oracle is ignored (lines 310-316);
`overall_score = contextual * 0.3 + direct * 0.7` (line 319).  On exception
or JSON parse failure the neutral values are substituted (lines 323-341). -/
def analyze_single_document (item : Item) (reply : OracleOutcome) : Scored :=
  match reply with
  | .parsed c? d? _label =>
    let contextual_score := c?.getD 5
    let direct_score := d?.getD 5
    let match_type :=
      if 7 ≤ direct_score then "direct"
      else if 4 ≤ direct_score then "balanced"
      else "contextual"
    { item := item
      contextual_score := contextual_score
      direct_match_score := direct_score
      match_type := match_type
      overall_score := contextual_score * (3/10) + direct_score * (7/10) }
  | .failure =>
    { item := item
      contextual_score := 5
      direct_match_score := 5
      match_type := "balanced"
      overall_score := 5 }

/-- The `asyncio.gather` join (line 353): one scored entry per input chunk,
in input order (positional correspondence is preserved). -/
def score_documents (chunks : List (Item × OracleOutcome)) : List Scored :=
  chunks.map fun p => analyze_single_document p.1 p.2

/-- The sort key of line 356: `sort(key=lambda x: x["overall_score"],
reverse=True)`, i.e. a stable sort with `a` before `b` iff
`b.overall_score ≤ a.overall_score`. -/
def scoreDesc (a b : Scored) : Bool := decide (b.overall_score ≤ a.overall_score)

/-- Lines 362-369: strength label from the overall score. -/
def strengthOf (overall : ℚ) : String :=
  if 9 ≤ overall then "Strong"
  else if 5 ≤ overall then "Moderate"
  else "Weak"

/-- Lines 359-369: the `enumerate` loop assigning `rank = index + 1` and the
strength label. -/
def addRanksFrom (n : Nat) : List Scored → List Ranked
  | [] => []
  | s :: rest =>
    { toScored := s, rank := n + 1, strength := strengthOf s.overall_score } ::
      addRanksFrom (n + 1) rest

/-- `rank_search_results` (lines 196-371): score every chunk, stably sort by
overall score descending, then assign dense 1-based ranks and strength
labels.  Python's `list.sort` is a stable sort, modelled by `mergeSort`. -/
def rank_search_results (chunks : List (Item × OracleOutcome)) : List Ranked :=
  addRanksFrom 0 ((score_documents chunks).mergeSort scoreDesc)

theorem scoreDesc_trans :
    ∀ (a b c : Scored), scoreDesc a b → scoreDesc b c → scoreDesc a c := by
  intro a b c hab hbc
  simp only [scoreDesc, decide_eq_true_eq] at *
  exact le_trans hbc hab

theorem scoreDesc_total : ∀ (a b : Scored), scoreDesc a b || scoreDesc b a := by
  intro a b
  simp only [scoreDesc, Bool.or_eq_true, decide_eq_true_eq]
  exact le_total b.overall_score a.overall_score

theorem addRanksFrom_map_toScored (n : Nat) (l : List Scored) :
    (addRanksFrom n l).map Ranked.toScored = l := by
  induction l generalizing n with
  | nil => rfl
  | cons s rest ih => simp [addRanksFrom, ih]

theorem addRanksFrom_map_rank (n : Nat) (l : List Scored) :
    (addRanksFrom n l).map Ranked.rank = List.range' (n + 1) l.length := by
  induction l generalizing n with
  | nil => rfl
  | cons s rest ih => simp [addRanksFrom, ih, List.range']

theorem rank_search_results_map_toScored (chunks : List (Item × OracleOutcome)) :
    (rank_search_results chunks).map Ranked.toScored
      = (score_documents chunks).mergeSort scoreDesc :=
  addRanksFrom_map_toScored 0 _

/-- **C2.**  For every list of scored candidates: the assigned ranks are
exactly the dense sequence `1..N`; `overall_score` is non-increasing in rank
order; and candidates with equal `overall_score` keep their pre-sort
relative order (the sort is stable). -/
theorem rank_search_results_dense_sorted_stable (chunks : List (Item × OracleOutcome)) :
    ((rank_search_results chunks).map Ranked.rank = List.range' 1 chunks.length)
    ∧ ((rank_search_results chunks).Pairwise
        (fun a b => b.overall_score ≤ a.overall_score))
    ∧ (∀ a b : Scored, a.overall_score = b.overall_score →
        List.Sublist [a, b] (score_documents chunks) →
        List.Sublist [a, b] ((rank_search_results chunks).map Ranked.toScored)) := by
  refine ⟨?_, ?_, ?_⟩
  · unfold rank_search_results
    rw [addRanksFrom_map_rank]
    simp [score_documents]
  · have hs := List.sorted_mergeSort scoreDesc_trans scoreDesc_total
      (score_documents chunks)
    rw [← rank_search_results_map_toScored] at hs
    have := List.pairwise_map.mp hs
    exact this.imp (fun h => by
      simpa [scoreDesc, decide_eq_true_eq] using h)
  · intro a b hab hsub
    rw [rank_search_results_map_toScored]
    refine List.pair_sublist_mergeSort scoreDesc_trans scoreDesc_total ?_ hsub
    simp [scoreDesc, hab]

/-- Witness for C2, at two candidates whose oracle calls both failed (equal
overall scores 5 and 5): their relative order is preserved in the output. -/
theorem rank_search_results_dense_sorted_stable_witness :
    List.Sublist
      [analyze_single_document ⟨0, []⟩ .failure,
       analyze_single_document ⟨1, []⟩ .failure]
      ((rank_search_results [(⟨0, []⟩, .failure), (⟨1, []⟩, .failure)]).map
        Ranked.toScored) :=
  (rank_search_results_dense_sorted_stable
      [(⟨0, []⟩, .failure), (⟨1, []⟩, .failure)]).2.2
    (analyze_single_document ⟨0, []⟩ .failure)
    (analyze_single_document ⟨1, []⟩ .failure)
    rfl
    (List.Sublist.refl _)

/-- **C3.**  For every successfully parsed oracle response, the assigned
`match_type` is a pure function of the resulting `direct_match_score` alone:
it is independent of the oracle's proposed label and of the contextual
score, and follows the thresholds `≥ 7 ⇒ "direct"`, `4..6 ⇒ "balanced"`,
`≤ 3 ⇒ "contextual"`. -/
theorem match_type_pure_thresholds (item : Item) (c? c?' d? : Option ℚ)
    (lbl lbl' : Option String) :
    (analyze_single_document item (.parsed c? d? lbl)
        = analyze_single_document item (.parsed c? d? lbl'))
    ∧ ((analyze_single_document item (.parsed c? d? lbl)).match_type
        = (analyze_single_document item (.parsed c?' d? lbl)).match_type)
    ∧ (7 ≤ (analyze_single_document item (.parsed c? d? lbl)).direct_match_score →
        (analyze_single_document item (.parsed c? d? lbl)).match_type = "direct")
    ∧ (4 ≤ (analyze_single_document item (.parsed c? d? lbl)).direct_match_score ∧
        (analyze_single_document item (.parsed c? d? lbl)).direct_match_score ≤ 6 →
        (analyze_single_document item (.parsed c? d? lbl)).match_type = "balanced")
    ∧ ((analyze_single_document item (.parsed c? d? lbl)).direct_match_score ≤ 3 →
        (analyze_single_document item (.parsed c? d? lbl)).match_type = "contextual") := by
  have hd : (analyze_single_document item (.parsed c? d? lbl)).direct_match_score
      = d?.getD 5 := rfl
  refine ⟨rfl, rfl, ?_, ?_, ?_⟩
  · intro h7
    rw [hd] at h7
    show (if 7 ≤ d?.getD 5 then "direct"
      else if 4 ≤ d?.getD 5 then "balanced" else "contextual") = "direct"
    rw [if_pos h7]
  · intro h46
    rw [hd] at h46
    show (if 7 ≤ d?.getD 5 then "direct"
      else if 4 ≤ d?.getD 5 then "balanced" else "contextual") = "balanced"
    rw [if_neg (by linarith [h46.2]), if_pos h46.1]
  · intro h3
    rw [hd] at h3
    show (if 7 ≤ d?.getD 5 then "direct"
      else if 4 ≤ d?.getD 5 then "balanced" else "contextual") = "contextual"
    rw [if_neg (by linarith), if_neg (by linarith)]

/-- Witness for C3, at the boundary values 7, 6, 4 and 3 of
`direct_match_score`. -/
theorem match_type_pure_thresholds_witness :
    ((analyze_single_document ⟨0, []⟩ (.parsed none (some 7) (some "contextual"))).match_type
        = "direct")
    ∧ ((analyze_single_document ⟨0, []⟩ (.parsed none (some 6) none)).match_type
        = "balanced")
    ∧ ((analyze_single_document ⟨0, []⟩ (.parsed none (some 4) none)).match_type
        = "balanced")
    ∧ ((analyze_single_document ⟨0, []⟩ (.parsed none (some 3) none)).match_type
        = "contextual") :=
  ⟨(match_type_pure_thresholds ⟨0, []⟩ none none (some 7) (some "contextual")
      none).2.2.1 (le_refl 7),
   (match_type_pure_thresholds ⟨0, []⟩ none none (some 6) none none).2.2.2.1
      ⟨by show (4:ℚ) ≤ 6; norm_num, le_refl 6⟩,
   (match_type_pure_thresholds ⟨0, []⟩ none none (some 4) none none).2.2.2.1
      ⟨le_refl 4, by show (4:ℚ) ≤ 6; norm_num⟩,
   (match_type_pure_thresholds ⟨0, []⟩ none none (some 3) none none).2.2.2.2
      (le_refl 3)⟩

/-- **C4.**  A candidate whose scoring-oracle call raised or whose response
failed to parse is not dropped: it still appears in the ranked result with
`contextual_score = 5`, `direct_match_score = 5`, `match_type = "balanced"`
and `overall_score = 5`. -/
theorem failed_candidate_not_dropped (chunks : List (Item × OracleOutcome))
    (item : Item) (h : (item, OracleOutcome.failure) ∈ chunks) :
    ∃ r ∈ rank_search_results chunks,
      r.item = item ∧ r.contextual_score = 5 ∧ r.direct_match_score = 5
      ∧ r.match_type = "balanced" ∧ r.overall_score = 5 := by
  have hmem : analyze_single_document item .failure ∈ score_documents chunks := by
    unfold score_documents
    exact List.mem_map_of_mem (fun p => analyze_single_document p.1 p.2) h
  have hmem' : analyze_single_document item .failure ∈
      (score_documents chunks).mergeSort scoreDesc :=
    List.mem_mergeSort.mpr hmem
  rw [← rank_search_results_map_toScored] at hmem'
  obtain ⟨r, hr, hreq⟩ := List.mem_map.mp hmem'
  refine ⟨r, hr, ?_, ?_, ?_, ?_, ?_⟩
  · show r.toScored.item = item
    rw [hreq]
    rfl
  · show r.toScored.contextual_score = 5
    rw [hreq]
    rfl
  · show r.toScored.direct_match_score = 5
    rw [hreq]
    rfl
  · show r.toScored.match_type = "balanced"
    rw [hreq]
    rfl
  · show r.toScored.overall_score = 5
    rw [hreq]
    rfl


/-- Witness for C4 at a single candidate whose oracle call failed. -/
theorem failed_candidate_not_dropped_witness :
    ∃ r ∈ rank_search_results [(⟨7, "chunk".toList⟩, OracleOutcome.failure)],
      r.item = ⟨7, "chunk".toList⟩ ∧ r.contextual_score = 5
      ∧ r.direct_match_score = 5 ∧ r.match_type = "balanced"
      ∧ r.overall_score = 5 :=
  failed_candidate_not_dropped [(⟨7, "chunk".toList⟩, OracleOutcome.failure)]
    ⟨7, "chunk".toList⟩ (List.mem_cons_self _ _)

/-- **C9.**  When the oracle returns valid JSON that omits
`contextual_score` or `direct_match_score`, each missing field is defaulted
to 5 individually while any present field is used as-is; in particular a
response carrying only `contextual_score = 9` yields the mixed result
(9, 5, "balanced", 6.2), not the full neutral substitute. -/
theorem missing_fields_default_individually (item : Item) (c? d? : Option ℚ)
    (lbl : Option String) :
    ((analyze_single_document item (.parsed c? d? lbl)).contextual_score = c?.getD 5)
    ∧ ((analyze_single_document item (.parsed c? d? lbl)).direct_match_score = d?.getD 5)
    ∧ ((analyze_single_document item (.parsed (some 9) none lbl)).contextual_score = 9
      ∧ (analyze_single_document item (.parsed (some 9) none lbl)).direct_match_score = 5
      ∧ (analyze_single_document item (.parsed (some 9) none lbl)).match_type = "balanced"
      ∧ (analyze_single_document item (.parsed (some 9) none lbl)).overall_score = 31/5) := by
  refine ⟨rfl, rfl, rfl, rfl, ?_, ?_⟩
  · show (if (7:ℚ) ≤ 5 then "direct" else if (4:ℚ) ≤ 5 then "balanced"
      else "contextual") = "balanced"
    norm_num
  · show (9 : ℚ) * (3/10) + 5 * (7/10) = 31/5
    norm_num

/-- **C10.**  Oracle-provided scores flow into `overall_score` and the
`match_type` thresholds without validation or clamping to 0..10: a
`direct_match_score` of 15 yields `match_type = "direct"` and an
`overall_score` above 10, and negative scores yield
`match_type = "contextual"` and a negative `overall_score`. -/
theorem scores_not_clamped (item : Item) (c? d? : Option ℚ) (lbl : Option String) :
    ((analyze_single_document item (.parsed c? d? lbl)).overall_score
        = c?.getD 5 * (3/10) + d?.getD 5 * (7/10))
    ∧ ((analyze_single_document item (.parsed (some 10) (some 15) lbl)).direct_match_score = 15
      ∧ (analyze_single_document item (.parsed (some 10) (some 15) lbl)).match_type = "direct"
      ∧ 10 < (analyze_single_document item (.parsed (some 10) (some 15) lbl)).overall_score)
    ∧ ((analyze_single_document item (.parsed (some (-2)) (some (-3)) lbl)).match_type
          = "contextual"
      ∧ (analyze_single_document item (.parsed (some (-2)) (some (-3)) lbl)).overall_score < 0) := by
  refine ⟨rfl, ⟨rfl, ?_, ?_⟩, ?_, ?_⟩
  · show (if (7:ℚ) ≤ 15 then "direct" else if (4:ℚ) ≤ 15 then "balanced"
      else "contextual") = "direct"
    norm_num
  · show (10 : ℚ) < 10 * (3/10) + 15 * (7/10)
    norm_num
  · show (if (7:ℚ) ≤ -3 then "direct" else if (4:ℚ) ≤ -3 then "balanced"
      else "contextual") = "contextual"
    norm_num
  · show (-2 : ℚ) * (3/10) + (-3) * (7/10) < 0
    norm_num

/-! ## Document grouping and ordering in `hybrid_search`
(`backend/app/search/utils.py`, non-precision branch, lines 130-230)

The store queries and the rerank service are modelled by their outcomes:
the two candidate lists and the reranked `(index, relevance_score)` list.
Only the parts relevant to document ordering are embedded: the ordered
de-duplicating merge (lines 130-138), the collection of reranked matches
(lines 164-180), the per-document grouping with running best score
(lines 182-195) and the sort by best score (lines 197-202). -/

/-- A stored document row, as far as ordering is concerned. -/
structure DocRow where
  id : Nat
deriving DecidableEq

/-- One reranked match (lines 164-180): the document it refers to, the
rerank relevance score and the 1-based rerank position. -/
structure MatchRec where
  doc_id : Nat
  relevance_score : ℚ
  rank : Nat
deriving DecidableEq

/-- One entry of the `documents` grouping dict (lines 182-195). -/
structure DocEntry where
  doc_id : Nat
  doc_matches : List MatchRec
  best_score : ℚ
deriving DecidableEq

/-- Lines 130-138: combine the semantic and keyword result lists into an
insertion-ordered, first-seen-wins de-duplicated list (an `OrderedDict`
keyed by `doc.id`). -/
def combineResults (semantic keyword : List DocRow) : List DocRow :=
  (semantic ++ keyword).foldl
    (fun acc d => if acc.any (fun x => x.id = d.id) then acc else acc ++ [d]) []

/-- Lines 164-180: turn the rerank response (a list of
`(index into the merged list, relevance_score)` pairs, in rerank order) into
the match list.  Indices outside the merged list cannot occur in a valid
rerank response and are skipped. -/
def hybridMatches (semantic keyword : List DocRow) (rerank : List (Nat × ℚ)) :
    List MatchRec :=
  let merged := combineResults semantic keyword
  rerank.enum.filterMap fun p =>
    (merged[p.2.1]?).map fun d =>
      { doc_id := d.id, relevance_score := p.2.2, rank := p.1 + 1 }

/-- Lines 183-195: fold one match into the grouping dict — append the match
to its document's entry (creating the entry at the end of the dict on first
sight) and raise the running `best_score` when strictly exceeded. -/
def addMatchToDocs (docs : List DocEntry) (m : MatchRec) : List DocEntry :=
  if docs.any (fun d => d.doc_id = m.doc_id) then
    docs.map fun d =>
      if d.doc_id = m.doc_id then
        { d with
          doc_matches := d.doc_matches ++ [m]
          best_score :=
            if d.best_score < m.relevance_score then m.relevance_score
            else d.best_score }
      else d
  else
    docs ++ [{ doc_id := m.doc_id, doc_matches := [m], best_score := m.relevance_score }]

/-- The grouping dict in insertion order (`documents.values()`). -/
def hybridGrouped (semantic keyword : List DocRow) (rerank : List (Nat × ℚ)) :
    List DocEntry :=
  (hybridMatches semantic keyword rerank).foldl addMatchToDocs []

/-- The sort key of lines 197-202: `sorted(..., key=lambda x: x["best_score"],
reverse=True)` — a stable sort with `a` before `b` iff
`b.best_score ≤ a.best_score`. -/
def bestDesc (a b : DocEntry) : Bool := decide (b.best_score ≤ a.best_score)

/-- Lines 197-202 of `hybrid_search`: the final per-document ordering —
group the reranked matches by document, then stably sort the groups by
`best_score` descending. -/
def hybrid_search_order (semantic keyword : List DocRow) (rerank : List (Nat × ℚ)) :
    List DocEntry :=
  (hybridGrouped semantic keyword rerank).mergeSort bestDesc

theorem bestDesc_trans :
    ∀ (a b c : DocEntry), bestDesc a b → bestDesc b c → bestDesc a c := by
  intro a b c hab hbc
  simp only [bestDesc, decide_eq_true_eq] at *
  exact le_trans hbc hab

theorem bestDesc_total : ∀ (a b : DocEntry), bestDesc a b || bestDesc b a := by
  intro a b
  simp only [bestDesc, Bool.or_eq_true, decide_eq_true_eq]
  exact le_total b.best_score a.best_score

/-- **C5 (counterexample).**  The per-document ordering of `hybrid_search`
is the stable sort by `best_score` alone, and full ties preserve the order
in which documents first appear in the *reranked* match list — not the
retrieval-merge order.  Concretely: the retrieval merge produces documents
`[1, 2]`, both documents tie completely (one match each, equal relevance
score 1, so every score- or count-derived key is equal), yet because the
rerank response lists document 2's match first the returned order is
`[2, 1]`, where the claim requires the retrieval-merge order `[1, 2]`. -/
theorem hybrid_order_not_merge_order :
    ((combineResults [⟨1⟩, ⟨2⟩] []).map DocRow.id = [1, 2])
    ∧ ((hybridGrouped [⟨1⟩, ⟨2⟩] [] [(1, 1), (0, 1)]).map DocEntry.doc_id = [2, 1])
    ∧ ((hybridGrouped [⟨1⟩, ⟨2⟩] [] [(1, 1), (0, 1)]).map DocEntry.best_score = [1, 1])
    ∧ ((hybridGrouped [⟨1⟩, ⟨2⟩] [] [(1, 1), (0, 1)]).map
        (fun d => d.doc_matches.length) = [1, 1])
    ∧ ((hybrid_search_order [⟨1⟩, ⟨2⟩] [] [(1, 1), (0, 1)]).map DocEntry.doc_id
        = [2, 1])
    ∧ ([2, 1] ≠ [1, 2]) := by
  have hg : hybridGrouped [⟨1⟩, ⟨2⟩] [] [(1, 1), (0, 1)]
      = [{ doc_id := 2, doc_matches := [{ doc_id := 2, relevance_score := 1, rank := 1 }],
           best_score := 1 },
         { doc_id := 1, doc_matches := [{ doc_id := 1, relevance_score := 1, rank := 2 }],
           best_score := 1 }] := by decide
  have hs : hybrid_search_order [⟨1⟩, ⟨2⟩] [] [(1, 1), (0, 1)]
      = hybridGrouped [⟨1⟩, ⟨2⟩] [] [(1, 1), (0, 1)] := by
    unfold hybrid_search_order
    rw [hg]
    exact List.mergeSort_of_sorted (by decide)
  refine ⟨by decide, by rw [hg]; rfl, by rw [hg]; rfl, by rw [hg]; rfl,
    by rw [hs, hg]; rfl, by decide⟩

/-- **C5 (amended).**  The returned list of per-document results is ordered
by the single scalar `best_score` (the maximum rerank relevance score among
the document's matches) descending — not by a composite multi-key sort —
and when two documents tie on `best_score`, the order of their first
appearance in the reranked match list is preserved (Python's `sorted` is
stable); this need not be the retrieval-merge order. -/
theorem hybrid_order_by_best_score_stable
    (semantic keyword : List DocRow) (rerank : List (Nat × ℚ)) :
    ((hybrid_search_order semantic keyword rerank).Pairwise
        (fun a b => b.best_score ≤ a.best_score))
    ∧ (List.Perm (hybrid_search_order semantic keyword rerank)
        (hybridGrouped semantic keyword rerank))
    ∧ (∀ a b : DocEntry, a.best_score = b.best_score →
        List.Sublist [a, b] (hybridGrouped semantic keyword rerank) →
        List.Sublist [a, b] (hybrid_search_order semantic keyword rerank)) := by
  refine ⟨?_, ?_, ?_⟩
  · have hs := List.sorted_mergeSort bestDesc_trans bestDesc_total
      (hybridGrouped semantic keyword rerank)
    exact hs.imp (fun h => by simpa [bestDesc, decide_eq_true_eq] using h)
  · exact List.mergeSort_perm _ _
  · intro a b hab hsub
    exact List.pair_sublist_mergeSort bestDesc_trans bestDesc_total
      (by simp [bestDesc, hab]) hsub

/-- Witness for C5 (amended): two fully tied documents keep their grouping
order in the sorted output. -/
theorem hybrid_order_by_best_score_stable_witness :
    List.Sublist
      [{ doc_id := 2, doc_matches := [{ doc_id := 2, relevance_score := 1, rank := 1 }],
         best_score := 1 },
       { doc_id := 1, doc_matches := [{ doc_id := 1, relevance_score := 1, rank := 2 }],
         best_score := 1 }]
      (hybrid_search_order [⟨1⟩, ⟨2⟩] [] [(1, 1), (0, 1)]) :=
  (hybrid_order_by_best_score_stable [⟨1⟩, ⟨2⟩] [] [(1, 1), (0, 1)]).2.2
    { doc_id := 2, doc_matches := [{ doc_id := 2, relevance_score := 1, rank := 1 }],
      best_score := 1 }
    { doc_id := 1, doc_matches := [{ doc_id := 1, relevance_score := 1, rank := 2 }],
      best_score := 1 }
    rfl
    (by
      have hg : hybridGrouped [⟨1⟩, ⟨2⟩] [] [(1, 1), (0, 1)]
          = [{ doc_id := 2,
               doc_matches := [{ doc_id := 2, relevance_score := 1, rank := 1 }],
               best_score := 1 },
             { doc_id := 1,
               doc_matches := [{ doc_id := 1, relevance_score := 1, rank := 2 }],
               best_score := 1 }] := by decide
      rw [hg])

/-! ## Highlight render cache
(`backend/app/search/pdf_highlight_utils.py`, `get_highlighted_pdf`)

Two concurrent callers with the same `(pdf_url, page_keywords)` — hence the
same cache key, the same `pdf_filename` and the same `highlighted_path` —
are modelled as two cooperative coroutines over a shared state, following
the `asyncio` single-threaded scheduling of the source: each caller runs
atomically between `await` points.  Per call the code executes, in order:

* lines 62-69: if the highlighted file already exists on disk, return its
  URL;
* lines 71-79: if `processing_pdfs[cache_key]` holds a task that is not
  done, `await` it (exceptions are swallowed);
* lines 81-97: **unconditionally** create a fresh render task, store it in
  `processing_pdfs[cache_key]` and `await` it; on success return the URL.

A render task, once finished successfully, writes the highlighted file
(`_process_and_highlight_pdf` saves to `output_path`). -/

/-- Program counter of one `get_highlighted_pdf` caller. -/
inductive CallerPC where
  | start
  | awaitingExisting (t : Nat)
  | awaitingOwn (t : Nat)
  | returned (url : String)
deriving DecidableEq

/-- Shared state: the disk (for the single cache path of the scenario), the
`processing_pdfs` registry entry for the key, the set of finished render
tasks, the id source for new tasks, and the number of render tasks started
(each started task executes one download-and-annotate render). -/
structure CacheState where
  diskHas : Bool := false
  inflight : Option Nat := none
  completed : List Nat := []
  nextTask : Nat := 0
  renders : Nat := 0
  pcA : CallerPC := .start
  pcB : CallerPC := .start
deriving DecidableEq

/-- The URL both callers compute for the shared cache key (lines 59, 65-69,
93-97: `pdf_filename` is a hash of the cache key, so it is identical for
identical inputs). -/
def highlightedUrl (fname : String) : String := "/highlighted_pdfs/" ++ fname

/-- `processing_pdfs[cache_key].done()`. -/
def taskDone (s : CacheState) (t : Nat) : Bool := s.completed.contains t

/-- Lines 82-87: `asyncio.create_task(_process_and_highlight_pdf(...))` plus
`processing_pdfs[cache_key] = task`. -/
def spawnRender (s : CacheState) : CacheState × Nat :=
  ({ s with
      nextTask := s.nextTask + 1
      inflight := some s.nextTask
      renders := s.renders + 1 }, s.nextTask)

/-- One atomic segment of a caller, between suspension points, following
`get_highlighted_pdf` line by line. -/
def callerStep (fname : String) (s : CacheState) (pc : CallerPC) :
    CacheState × CallerPC :=
  match pc with
  | .start =>
    if s.diskHas then
      -- lines 62-69: pre-highlighted file found
      (s, .returned (highlightedUrl fname))
    else
      match s.inflight with
      | some t =>
        if !taskDone s t then
          -- lines 71-76: await the in-flight task
          (s, .awaitingExisting t)
        else
          -- fall through to lines 81-91
          let (s', t') := spawnRender s
          (s', .awaitingOwn t')
      | none =>
        let (s', t') := spawnRender s
        (s', .awaitingOwn t')
  | .awaitingExisting t =>
    if taskDone s t then
      -- lines 81-91: after the awaited task finishes — with success *or*
      -- failure — the code falls through and starts a fresh render task
      let (s', t') := spawnRender s
      (s', .awaitingOwn t')
    else
      (s, .awaitingExisting t)
  | .awaitingOwn t =>
    if taskDone s t then
      -- lines 89-97: own task finished, return the URL
      (s, .returned (highlightedUrl fname))
    else
      (s, .awaitingOwn t)
  | .returned u => (s, .returned u)

/-- Scheduler events: resume caller A, resume caller B, or complete a
running render task (which writes the highlighted file to disk). -/
inductive CacheEv where
  | stepA
  | stepB
  | finish (t : Nat)

/-- One scheduler step. -/
def cacheStep (fname : String) (s : CacheState) : CacheEv → CacheState
  | .stepA =>
    let (s', pc) := callerStep fname s s.pcA
    { s' with pcA := pc }
  | .stepB =>
    let (s', pc) := callerStep fname s s.pcB
    { s' with pcB := pc }
  | .finish t =>
    if t < s.nextTask && !(s.completed.contains t) then
      { s with completed := t :: s.completed, diskHas := true }
    else s

/-- Run a schedule from the initial state (no highlighted file on disk, no
in-flight task). -/
def runCache (fname : String) (evs : List CacheEv) : CacheState :=
  evs.foldl (cacheStep fname) {}

/-- The canonical concurrent schedule: caller A starts a render; caller B
arrives while it is in flight and awaits it; the render finishes; B resumes
— and starts a second render; A returns; B's render finishes; B returns. -/
def concurrentSchedule : List CacheEv :=
  [.stepA, .stepB, .finish 0, .stepA, .stepB, .finish 1, .stepB]

/-- **C1.**  Under the concurrent schedule, two calls to
`get_highlighted_pdf` with the same source URL and per-page keyword map (no
completed highlighted file on disk) both return the same highlighted-PDF
URL, but **two** download-and-annotate renders are executed, not one: after
awaiting the in-flight render the second caller unconditionally starts a
fresh render instead of returning the completed result. -/
theorem get_highlighted_pdf_double_render :
    ((runCache "f.pdf" concurrentSchedule).renders = 2)
    ∧ ((runCache "f.pdf" concurrentSchedule).pcA
        = .returned (highlightedUrl "f.pdf"))
    ∧ ((runCache "f.pdf" concurrentSchedule).pcB
        = .returned (highlightedUrl "f.pdf")) := by
  refine ⟨by decide, by decide, by decide⟩

/-! ## The generic search request
(`backend/app/search/routers.py`, `search_generic`)

`routers.py` calls `hybrid_search(session, query_str=..., country=...,
organization=..., region=...)`; the facet-filtered `hybrid_search` with that
signature is not part of this snapshot (the `utils.py` in it is an older
revision with signature `(session, query_str, top_k, precision)`), so the
orchestration of that call is modelled from the spec below, re-using the
scoring / explanation / keyphrase functions that *are* in the snapshot.
External services are modelled by their outcome, carried in an
`OracleEnv`. -/

/-- Outcome of an explanation-oracle call. -/
inductive ExplReply where
  | failure
  | reply (content : Str)
deriving DecidableEq

/-- Lines 18-51 of `backend/app/search/openai_utils.py`: the explanation is
the stripped oracle reply; on any exception the fixed fallback string is
returned (the error is absorbed). -/
def generate_query_match_explanation (query chunk_content : Str)
    (oracle : ExplReply) : Str :=
  match oracle with
  | .reply content => pyStrip content
  | .failure => "Unable to generate explanation.".toList

/-- Outcomes of the external services consumed by one search request. -/
structure OracleEnv where
  embed_ok : Bool
  semantic_ok : Bool
  keyword_ok : Bool
  rerank_ok : Bool
  scoring : Item → OracleOutcome
  explanation : Item → ExplReply
  keyphrase : Item → KeyphraseReply
  highlight_ok : Bool

/-- Failure modes surfaced to the API boundary. -/
inductive SearchError where
  | emptyQuery
  | embedFailure
  | storeFailure
  | rerankFailure
deriving DecidableEq

/-- One per-match result of the retrieval-and-ranking pipeline. -/
structure PipelineResult where
  item : Item
  rank : Nat
  explanation : Str
  starting_keyphrase : Str
deriving DecidableEq

/-- Modelled from the spec: the facet-filtered `hybrid_search` called by
`routers.py` is missing from the snapshot, so its orchestration is taken
from §2/§4/§7 of the specification — embedding and store failures are fatal
and propagate; an empty merged candidate set short-circuits to an empty
result; every per-candidate scoring call goes through
`rank_search_results`/`analyze_single_document` (which absorbs per-item
oracle failures), and explanation / keyphrase extraction go through
`generate_query_match_explanation` / `extract_highlight_keyphrase` (which
absorb their oracle failures). -/
def hybrid_search_pipeline (query : Str) (candidates : List Item)
    (env : OracleEnv) : Except SearchError (List PipelineResult) :=
  if env.embed_ok = false then .error .embedFailure
  else if env.semantic_ok = false ∨ env.keyword_ok = false then .error .storeFailure
  else if candidates = [] then .ok []
  else if env.rerank_ok = false then .error .rerankFailure
  else
    let ranked := rank_search_results (candidates.map fun it => (it, env.scoring it))
    .ok (ranked.map fun r =>
      { item := r.item
        rank := r.rank
        explanation := generate_query_match_explanation query
          r.item.contextualized_chunk (env.explanation r.item)
        starting_keyphrase := extract_highlight_keyphrase query
          r.item.contextualized_chunk (env.keyphrase r.item) })

/-- One entry of the response assembled by `search_generic`
(lines 106-155 of `routers.py`): the pipeline result plus whether a
highlighted-PDF URL could be attached. -/
structure GenericResult where
  item : Item
  rank : Nat
  explanation : Str
  starting_keyphrase : Str
  highlighted : Bool
deriving DecidableEq

/-- `search_generic` (lines 74-170 of `backend/app/search/routers.py`): an
empty (all-whitespace) query is rejected; a pipeline error is re-raised
(line 170); a highlight failure is caught and the request continues without
the highlighted URL (lines 110-148). -/
def search_generic (query : Str) (candidates : List Item) (env : OracleEnv) :
    Except SearchError (List GenericResult) :=
  if pyStrip query = [] then .error .emptyQuery
  else
    match hybrid_search_pipeline query candidates env with
    | .error e => .error e
    | .ok results =>
      .ok (results.map fun r =>
        { item := r.item
          rank := r.rank
          explanation := r.explanation
          starting_keyphrase := r.starting_keyphrase
          highlighted := env.highlight_ok })

/-- An environment in which only the embedding service is down: the store
and every LLM-style oracle are fine. -/
def envEmbedDown : OracleEnv where
  embed_ok := false
  semantic_ok := true
  keyword_ok := true
  rerank_ok := true
  scoring := fun _ => .parsed (some 8) (some 8) none
  explanation := fun _ => .reply ("Mentions the topic.".toList)
  keyphrase := fun _ => .reply ("topic".toList)
  highlight_ok := true

/-- **C8 (counterexample).**  A request with a non-empty query fails even
though the store is reachable and the query is valid, because the embedding
service is down — so "fails only if the store itself is unreachable or the
query is empty/invalid" does not hold. -/
theorem search_generic_fails_on_embed_failure :
    (search_generic ("health".toList) [⟨1, "chunk text".toList⟩] envEmbedDown
        = .error .embedFailure)
    ∧ envEmbedDown.semantic_ok = true
    ∧ envEmbedDown.keyword_ok = true
    ∧ ¬ pyStrip ("health".toList) = [] := by
  refine ⟨rfl, rfl, rfl, by decide⟩

/-- **C8 (amended).**  A search request with a non-empty query never fails
because an LLM-style oracle (scoring, explanation, keyphrase) or the
highlight renderer was unavailable — those outcomes are unconstrained here —
and fails only if the store, the embedding service or the reranking service
fails, or the query is empty. -/
theorem search_generic_ok_of_infrastructure (query : Str)
    (candidates : List Item) (env : OracleEnv)
    (hq : ¬ pyStrip query = [])
    (he : env.embed_ok = true) (hs : env.semantic_ok = true)
    (hk : env.keyword_ok = true) (hr : env.rerank_ok = true) :
    ∃ rs, search_generic query candidates env = .ok rs := by
  unfold search_generic hybrid_search_pipeline
  rw [if_neg hq, he, hs, hk, hr]
  by_cases hc : candidates = [] <;> simp [hc]

/-- An environment in which every LLM-style oracle and the highlight
renderer fail, while the infrastructure is up. -/
def envOraclesDown : OracleEnv where
  embed_ok := true
  semantic_ok := true
  keyword_ok := true
  rerank_ok := true
  scoring := fun _ => .failure
  explanation := fun _ => .failure
  keyphrase := fun _ => .failure
  highlight_ok := false

/-- Witness for C8 (amended): with every LLM-style oracle and the highlight
renderer down, a non-empty query still succeeds. -/
theorem search_generic_ok_of_infrastructure_witness :
    ∃ rs, search_generic ("health".toList) [⟨1, "chunk text".toList⟩]
        envOraclesDown = .ok rs :=
  search_generic_ok_of_infrastructure ("health".toList)
    [⟨1, "chunk text".toList⟩] envOraclesDown (by decide) rfl rfl rfl rfl

end SA
